import Mathlib

/-!
Shallow embedding of the walrus `Database` transaction / stream-command
layer (`walrus/database.py`).

Conventions of the embedding:
* Python exceptions are modelled by `PyErr`; a method that can raise
  returns an `Except PyErr _` (or a pair of the post-state and such a
  result when the method also mutates state).
* The per-context transaction stack `TransactionLocal.pipes` is a Python
  list that is appended to and popped at its tail.  The model stores the
  newest pipeline at the HEAD of the Lean list (a pure representation
  choice: `append`/`pop()` at the tail of the Python list correspond to
  cons/uncons at the head here).
* A redis-py `Pipeline` is external to this repository; per the spec's
  data model it is an ordered queue of not-yet-sent commands, consumed
  once by `execute` (send) or `reset` (discard).  It is modelled as a
  `List String` of queued command frames.
* Values that Python type-checks dynamically (`isinstance(x, int)`) are
  modelled by `PyVal`.
-/

/-- Python exception values that the embedded code can raise. -/
inductive PyErr where
  | valueError (msg : String)
  | attributeError (msg : String)
  | readFailure (msg : String)
deriving DecidableEq, Repr

/-- A dynamically-typed Python value: an int or a str. -/
inductive PyVal where
  | vint (i : Int)
  | vstr (s : String)
deriving DecidableEq, Repr

/-- `isinstance(v, int)`. -/
def pyIsInt : PyVal → Bool
  | .vint _ => true
  | .vstr _ => false

/-- Python `str(v)`. -/
def pyStr : PyVal → String
  | .vint i => toString i
  | .vstr s => s

/-- `isinstance(v, int) and v >= 1` — the guard used by XADD maxlen and the
COUNT arguments (the code raises when `not isinstance(v, int) or v < 1`). -/
def posInt : PyVal → Bool
  | .vint i => 1 ≤ i
  | .vstr _ => false

/-- `isinstance(v, int) and v >= 0` — the guard used by the XREAD timeout
(the code raises when `not isinstance(timeout, int) or timeout < 0`). -/
def nonNegInt : PyVal → Bool
  | .vint i => 0 ≤ i
  | .vstr _ => false

/-- The observable state of one `Database`'s transaction machinery in one
execution context: `pipes` is `TransactionLocal.pipes` (newest pipeline
first, each pipeline the list of its queued command frames), and `sent`
records each batch of commands actually flushed to the server by a
`pipe.execute()`, in flush order. -/
structure DBState where
  pipes : List (List String)
  sent : List (List String)
deriving DecidableEq, Repr

/-- The state of a freshly constructed `Database`: empty stack, nothing sent. -/
def dbInit : DBState := ⟨[], []⟩

/-- `Database.get_transaction`: `local.pipes.append(self.pipeline())` — push
a fresh empty pipeline; never fails. -/
def getTransaction (st : DBState) : DBState :=
  ⟨[] :: st.pipes, st.sent⟩

/-- `Database.commit_transaction`: raises `ValueError` when `local.pipes` is
empty, otherwise `local.commit()` pops the top pipeline and executes it,
returning the pipeline's replies (modelled as its command list). -/
def commitTransaction (st : DBState) : DBState × Except PyErr (List String) :=
  match st.pipes with
  | [] => (st, .error (.valueError "No transaction is currently active."))
  | p :: rest => (⟨rest, st.sent ++ [p]⟩, .ok p)

/-- `Database.clear_transaction`: raises `ValueError` when `local.pipes` is
empty, otherwise `local.abort()` pops the top pipeline and resets it
(its queued commands are discarded, never sent). -/
def clearTransaction (st : DBState) : DBState × Except PyErr Unit :=
  match st.pipes with
  | [] => (st, .error (.valueError "No transaction is currently active."))
  | _ :: rest => (⟨rest, st.sent⟩, .ok ())

/-- Issuing one command in the current context: with an active transaction it
is queued into the top-of-stack pipeline (the one `TransactionLocal.pipe`
exposes); with no active transaction it is sent to the server at once. -/
def queueCmd (st : DBState) (c : String) : DBState :=
  match st.pipes with
  | [] => ⟨[], st.sent ++ [[c]]⟩
  | p :: rest => ⟨(p ++ [c]) :: rest, st.sent⟩

/-- One call in a begin/queue/commit/abort sequence against one context. -/
inductive TxOp where
  | begin
  | queue (c : String)
  | commit
  | abort
deriving DecidableEq, Repr

/-- Run one transaction-stack call, propagating a raised exception. -/
def stepOp (st : DBState) : TxOp → Except PyErr DBState
  | .begin => .ok (getTransaction st)
  | .queue c => .ok (queueCmd st c)
  | .commit => (commitTransaction st).2.map fun _ => (commitTransaction st).1
  | .abort => (clearTransaction st).2.map fun _ => (clearTransaction st).1

/-- Run a sequence of transaction-stack calls, stopping at the first raise. -/
def runOps : DBState → List TxOp → Except PyErr DBState
  | st, [] => .ok st
  | st, op :: rest =>
    match stepOp st op with
    | .ok st2 => runOps st2 rest
    | .error e => .error e

/-- Number of `begin` calls in a sequence. -/
def countBegin : List TxOp → Nat
  | [] => 0
  | .begin :: rest => countBegin rest + 1
  | _ :: rest => countBegin rest

/-- Number of `commit`/`abort` calls in a sequence. -/
def countClose : List TxOp → Nat
  | [] => 0
  | .commit :: rest => countClose rest + 1
  | .abort :: rest => countClose rest + 1
  | _ :: rest => countClose rest

/-- A sequence is a valid LIFO pattern from stack depth `d` when no
`commit`/`abort` ever acts on an empty stack. -/
def validFrom : Nat → List TxOp → Bool
  | _, [] => true
  | d, .begin :: rest => validFrom (d + 1) rest
  | d, .queue _ :: rest => validFrom d rest
  | d, .commit :: rest => decide (0 < d) && validFrom (d - 1) rest
  | d, .abort :: rest => decide (0 < d) && validFrom (d - 1) rest

/-- A sequence is balanced at relative depth `d` when it never closes a
pipeline below its starting level and ends back exactly at that level. -/
def balancedFrom : Nat → List TxOp → Bool
  | d, [] => decide (d = 0)
  | d, .begin :: rest => balancedFrom (d + 1) rest
  | d, .queue _ :: rest => balancedFrom d rest
  | d, .commit :: rest => decide (0 < d) && balancedFrom (d - 1) rest
  | d, .abort :: rest => decide (0 < d) && balancedFrom (d - 1) rest

/-- The commands a sequence queues directly into the pipeline that is on top
of the stack when the sequence starts, `d` being the number of pipelines
the sequence has currently pushed above that one. -/
def tq : Nat → List TxOp → List String
  | d, .begin :: rest => tq (d + 1) rest
  | 0, .queue c :: rest => c :: tq 0 rest
  | Nat.succ d, .queue _ :: rest => tq (d + 1) rest
  | 0, .commit :: rest => tq 0 rest
  | Nat.succ d, .commit :: rest => tq d rest
  | 0, .abort :: rest => tq 0 rest
  | Nat.succ d, .abort :: rest => tq d rest
  | _, [] => []

theorem runOps_append (l1 l2 : List TxOp) :
    ∀ st, runOps st (l1 ++ l2) =
      match runOps st l1 with
      | .ok st2 => runOps st2 l2
      | .error e => .error e := by
  induction l1 with
  | nil => intro st; rfl
  | cons op rest ih =>
    intro st
    simp only [List.cons_append, runOps]
    cases stepOp st op with
    | ok st2 => exact ih st2
    | error e => rfl

theorem depth_run (ops : List TxOp) :
    ∀ d st, st.pipes.length = d → validFrom d ops = true →
      ∃ st', runOps st ops = .ok st' ∧
        st'.pipes.length + countClose ops = d + countBegin ops := by
  induction ops with
  | nil =>
    intro d st hlen _
    exact ⟨st, rfl, by simp [countClose, countBegin, hlen]⟩
  | cons op rest ih =>
    intro d st hlen hv
    cases op with
    | begin =>
      have hv' : validFrom (d + 1) rest = true := hv
      obtain ⟨st', h1, h2⟩ := ih (d + 1) (getTransaction st)
        (by simp [getTransaction, hlen]) hv'
      refine ⟨st', h1, ?_⟩
      simp only [countClose, countBegin]
      omega
    | queue c =>
      have hv' : validFrom d rest = true := hv
      have hq : (queueCmd st c).pipes.length = d := by
        cases hps : st.pipes with
        | nil => rw [← hlen, hps]; simp [queueCmd, hps]
        | cons p ps => rw [← hlen, hps]; simp [queueCmd, hps]
      obtain ⟨st', h1, h2⟩ := ih d (queueCmd st c) hq hv'
      refine ⟨st', h1, ?_⟩
      simp only [countClose, countBegin]
      omega
    | commit =>
      simp only [validFrom, Bool.and_eq_true, decide_eq_true_eq] at hv
      obtain ⟨hd, hv'⟩ := hv
      cases hps : st.pipes with
      | nil => rw [hps] at hlen; simp at hlen; omega
      | cons p ps =>
        obtain ⟨st', h1, h2⟩ := ih (d - 1)
          ⟨ps, st.sent ++ [p]⟩ (by simp [← hlen, hps]) hv'
        refine ⟨st', ?_, ?_⟩
        · simpa [runOps, stepOp, commitTransaction, hps, Except.map] using h1
        · simp only [countClose, countBegin]
          omega
    | abort =>
      simp only [validFrom, Bool.and_eq_true, decide_eq_true_eq] at hv
      obtain ⟨hd, hv'⟩ := hv
      cases hps : st.pipes with
      | nil => rw [hps] at hlen; simp at hlen; omega
      | cons p ps =>
        obtain ⟨st', h1, h2⟩ := ih (d - 1)
          ⟨ps, st.sent⟩ (by simp [← hlen, hps]) hv'
        refine ⟨st', ?_, ?_⟩
        · simpa [runOps, stepOp, clearTransaction, hps, Except.map] using h1
        · simp only [countClose, countBegin]
          omega

/-- The bottom-most pipeline of a non-empty prefix of the stack (the one that
was on top when a balanced sub-sequence started); `[]` for an empty list. -/
def lastPipe : List (List String) → List String
  | [] => []
  | [p] => p
  | _ :: q :: rest => lastPipe (q :: rest)

theorem balanced_run (ops : List TxOp) :
    ∀ d ps P S, balancedFrom d ops = true → ps.length = d + 1 →
      ∃ extra, runOps ⟨ps ++ P, S⟩ ops =
        .ok ⟨(lastPipe ps ++ tq d ops) :: P, S ++ extra⟩ := by
  induction ops with
  | nil =>
    intro d ps P S hb hlen
    have hd : d = 0 := by simpa [balancedFrom] using hb
    subst hd
    match ps, hlen with
    | [b], _ => exact ⟨[], by simp [runOps, tq, lastPipe]⟩
  | cons op rest ih =>
    intro d ps P S hb hlen
    cases op with
    | begin =>
      have hb' : balancedFrom (d + 1) rest = true := hb
      obtain ⟨extra, hrun⟩ := ih (d + 1) ([] :: ps) P S hb' (by simp [hlen])
      refine ⟨extra, ?_⟩
      have hstep : runOps ⟨ps ++ P, S⟩ (TxOp.begin :: rest) =
          runOps ⟨([] :: ps) ++ P, S⟩ rest := rfl
      rw [hstep, hrun]
      cases ps with
      | nil => simp at hlen
      | cons q ps' => simp [tq, lastPipe]
    | queue c =>
      have hb' : balancedFrom d rest = true := hb
      cases ps with
      | nil => simp at hlen
      | cons q ps' =>
        have hstep : runOps ⟨(q :: ps') ++ P, S⟩ (TxOp.queue c :: rest) =
            runOps ⟨((q ++ [c]) :: ps') ++ P, S⟩ rest := rfl
        cases d with
        | zero =>
          cases ps' with
          | nil =>
            obtain ⟨extra, hrun⟩ := ih 0 [q ++ [c]] P S hb' rfl
            refine ⟨extra, ?_⟩
            rw [hstep, hrun]
            simp [tq, lastPipe, List.append_assoc]
          | cons r t => simp at hlen
        | succ d' =>
          obtain ⟨extra, hrun⟩ :=
            ih (d' + 1) ((q ++ [c]) :: ps') P S hb' (by simpa using hlen)
          refine ⟨extra, ?_⟩
          rw [hstep, hrun]
          cases ps' with
          | nil => simp at hlen
          | cons r t => simp [tq, lastPipe]
    | commit =>
      simp only [balancedFrom, Bool.and_eq_true, decide_eq_true_eq] at hb
      obtain ⟨hd, hb'⟩ := hb
      cases d with
      | zero => omega
      | succ d' =>
        cases ps with
        | nil => simp at hlen
        | cons q ps' =>
          have hlen' : ps'.length = d' + 1 := by simpa using hlen
          have hstep : runOps ⟨(q :: ps') ++ P, S⟩ (TxOp.commit :: rest) =
              runOps ⟨ps' ++ P, S ++ [q]⟩ rest := rfl
          obtain ⟨extra, hrun⟩ := ih d' ps' P (S ++ [q]) hb' hlen'
          refine ⟨[q] ++ extra, ?_⟩
          rw [hstep, hrun]
          cases ps' with
          | nil => simp at hlen'
          | cons r t => simp [tq, lastPipe, List.append_assoc]
    | abort =>
      simp only [balancedFrom, Bool.and_eq_true, decide_eq_true_eq] at hb
      obtain ⟨hd, hb'⟩ := hb
      cases d with
      | zero => omega
      | succ d' =>
        cases ps with
        | nil => simp at hlen
        | cons q ps' =>
          have hlen' : ps'.length = d' + 1 := by simpa using hlen
          have hstep : runOps ⟨(q :: ps') ++ P, S⟩ (TxOp.abort :: rest) =
              runOps ⟨ps' ++ P, S⟩ rest := rfl
          obtain ⟨extra, hrun⟩ := ih d' ps' P S hb' hlen'
          refine ⟨extra, ?_⟩
          rw [hstep, hrun]
          cases ps' with
          | nil => simp at hlen'
          | cons r t => simp [tq, lastPipe]

/-- C1: with an empty per-context transaction stack, `commit_transaction` and
`clear_transaction` both raise `ValueError` ("No transaction is currently
active") instead of silently doing nothing, and the state — in particular the
still-empty stack — is unchanged by the failed call. -/
theorem commit_abort_empty_stack (st : DBState) (h : st.pipes = []) :
    commitTransaction st =
      (st, .error (.valueError "No transaction is currently active.")) ∧
    clearTransaction st =
      (st, .error (.valueError "No transaction is currently active.")) := by
  constructor <;> simp [commitTransaction, clearTransaction, h]

theorem commit_abort_empty_stack_witness :
    commitTransaction dbInit =
      (dbInit, .error (.valueError "No transaction is currently active.")) ∧
    clearTransaction dbInit =
      (dbInit, .error (.valueError "No transaction is currently active.")) :=
  commit_abort_empty_stack dbInit rfl

/-- C2: for every valid LIFO sequence of begin/queue/commit/abort calls the
stack depth after the run equals the number of begins minus the number of
commits/aborts, and a commit whose matching begin pushed a given pipeline
flushes exactly the commands queued directly into that pipeline (the nested
layers' commands are settled by their own closes, and the outer stack is
handed back untouched). -/
theorem lifo_depth_and_flush :
    (∀ ops : List TxOp, validFrom 0 ops = true →
      ∃ st', runOps dbInit ops = .ok st' ∧
        countClose ops ≤ countBegin ops ∧
        st'.pipes.length = countBegin ops - countClose ops) ∧
    (∀ (ops : List TxOp) (st : DBState), balancedFrom 0 ops = true →
      ∃ extra, runOps st (TxOp.begin :: (ops ++ [TxOp.commit])) =
        .ok ⟨st.pipes, (st.sent ++ extra) ++ [tq 0 ops]⟩) := by
  constructor
  · intro ops hv
    obtain ⟨st', h1, h2⟩ := depth_run ops 0 dbInit rfl hv
    exact ⟨st', h1, by omega, by omega⟩
  · intro ops st hb
    obtain ⟨extra, hrun⟩ := balanced_run ops 0 [[]] st.pipes st.sent hb rfl
    refine ⟨extra, ?_⟩
    have hstep : runOps st (TxOp.begin :: (ops ++ [TxOp.commit])) =
        runOps ⟨[[]] ++ st.pipes, st.sent⟩ (ops ++ [TxOp.commit]) := rfl
    rw [hstep, runOps_append, hrun]
    simp [runOps, stepOp, commitTransaction, Except.map, lastPipe]

theorem lifo_depth_and_flush_witness :
    (∃ st', runOps dbInit [TxOp.begin, TxOp.queue "SET a 1", TxOp.commit] = .ok st' ∧
      countClose [TxOp.begin, TxOp.queue "SET a 1", TxOp.commit] ≤
        countBegin [TxOp.begin, TxOp.queue "SET a 1", TxOp.commit] ∧
      st'.pipes.length =
        countBegin [TxOp.begin, TxOp.queue "SET a 1", TxOp.commit] -
          countClose [TxOp.begin, TxOp.queue "SET a 1", TxOp.commit]) ∧
    (∃ extra,
      runOps dbInit (TxOp.begin :: ([TxOp.queue "SET a 1"] ++ [TxOp.commit])) =
        .ok ⟨dbInit.pipes, (dbInit.sent ++ extra) ++ [tq 0 [TxOp.queue "SET a 1"]]⟩) :=
  ⟨lifo_depth_and_flush.1 [TxOp.begin, TxOp.queue "SET a 1", TxOp.commit] (by decide),
   lifo_depth_and_flush.2 [TxOp.queue "SET a 1"] dbInit (by decide)⟩

/-- `_Atomic.__enter__`: `self.db.get_transaction()` — pushes a fresh
pipeline. -/
def atomicEnter (st : DBState) : DBState := getTransaction st

/-- `_Atomic.__exit__(exc_type, exc_val, exc_tb)`: with a pending exception it
runs `self.clear(False)` (= `clear_transaction`), otherwise `self.commit(False)`
(= `commit_transaction`); neither branch begins a new pipeline.  `__exit__`
returns `None`, a falsy value, so the returned `Bool` (whether the original
exception is suppressed rather than re-raised) is always `false`. -/
def atomicExit (st : DBState) (excPending : Bool) :
    (DBState × Except PyErr Unit) × Bool :=
  if excPending then (clearTransaction st, false)
  else (((commitTransaction st).1, (commitTransaction st).2.map fun _ => ()), false)

/-- Queue a list of commands one after the other in the current context. -/
def runQueue : DBState → List String → DBState
  | st, [] => st
  | st, c :: rest => runQueue (queueCmd st c) rest

/-- One `with db.atomic():` scope around a body that queues `body` and then
either completes normally (`raises = false`) or raises (`raises = true`). -/
def atomicScope (st : DBState) (body : List String) (raises : Bool) :
    (DBState × Except PyErr Unit) × Bool :=
  atomicExit (runQueue (atomicEnter st) body) raises

theorem runQueue_cons (p : List String) (P : List (List String))
    (S : List (List String)) :
    ∀ body, runQueue ⟨p :: P, S⟩ body = ⟨(p ++ body) :: P, S⟩ := by
  intro body
  induction body generalizing p with
  | nil => simp [runQueue]
  | cons c rest ih =>
    simp [runQueue, queueCmd, ih, List.append_assoc]

/-- C3: entering `atomic()` pushes a new pipeline; a normal exit commits
exactly the commands the body queued; an exit caused by an exception discards
them — they are never sent — and the exception is not suppressed (the `with`
statement re-raises it); in both cases the stack below the scope's own
pipeline — the pipelines pushed by enclosing `atomic()` scopes included — is
handed back exactly as it was on entry. -/
theorem atomic_scope_semantics (st : DBState) (body : List String) :
    atomicScope st body false =
      ((⟨st.pipes, st.sent ++ [body]⟩, .ok ()), false) ∧
    atomicScope st body true =
      ((⟨st.pipes, st.sent⟩, .ok ()), false) := by
  constructor <;>
    simp [atomicScope, atomicEnter, atomicExit, getTransaction, runQueue_cons,
      commitTransaction, clearTransaction, Except.map]

/-- Flatten a field→value mapping into alternating field/value tokens
(`for k, v in data.items(): parts.append(k); parts.append(v)`). -/
def kvParts : List (String × String) → List String
  | [] => []
  | (k, v) :: rest => k :: v :: kvParts rest

/-- `Database.xadd`: builds `[MAXLEN [~] n]? id field value ...` for
`execute_command('XADD', key, *parts)`; raises `ValueError` when `maxlen` is
supplied but is not a positive integer, before the command is built or sent.
An `.ok parts` result stands for the command being sent with exactly those
arguments after the key; an `.error` means nothing was sent. -/
def xadd (key : String) (data : List (String × String)) (id : String)
    (maxlen : Option PyVal) (approximate : Bool) : Except PyErr (List String) :=
  match maxlen with
  | some m =>
    if posInt m then
      .ok ((["MAXLEN"] ++ (if approximate then ["~"] else []) ++ [pyStr m])
        ++ id :: kvParts data)
    else .error (.valueError "XADD maxlen must be a positive integer")
  | none => .ok (id :: kvParts data)

/-- `Database._xrange` (shared by XRANGE and XREVRANGE): builds
`start stop [COUNT n]?`; raises `ValueError` when `count` is supplied but is
not a positive integer, before the command is sent. -/
def _xrange (cmd : String) (key : String) (start stop : String)
    (count : Option PyVal) : Except PyErr (List String) :=
  match count with
  | some c =>
    if posInt c then .ok ([start, stop] ++ ["COUNT", pyStr c])
    else .error (.valueError (cmd ++ " count must be a positive integer"))
  | none => .ok [start, stop]

/-- `Database.xrange`. -/
def xrange (key : String) (start stop : String) (count : Option PyVal) :
    Except PyErr (List String) :=
  _xrange "XRANGE" key start stop count

/-- `Database.xrevrange`. -/
def xrevrange (key : String) (start stop : String) (count : Option PyVal) :
    Except PyErr (List String) :=
  _xrange "XREVRANGE" key start stop count

/-- `Database.xtrim`: builds `MAXLEN [~] count`; the source performs no
validation of `count` at all — `str(count)` is encoded as-is and sent. -/
def xtrim (key : String) (count : PyVal) (approximate : Bool) :
    Except PyErr (List String) :=
  .ok (["MAXLEN"] ++ (if approximate then ["~"] else []) ++ [pyStr count])

/-- Python `dict` insertion: an existing key keeps its position and takes the
new value, a new key is appended at the end. -/
def dictInsert {α : Type} (m : List (String × α)) (k : String) (v : α) :
    List (String × α) :=
  if m.any fun p => p.1 == k then
    m.map fun p => if p.1 == k then (k, v) else p
  else m ++ [(k, v)]

/-- Python `dict(pairs)`: left-to-right insertion of the pairs. -/
def dictOfPairs {α : Type} (l : List (String × α)) : List (String × α) :=
  l.foldl (fun m p => dictInsert m p.1 p.2) []

/-- `redis.client.pairs_to_dict` pairing step: consecutive reply tokens are
grouped into (field, value) pairs in order. -/
def chunkPairs : List String → List (String × String)
  | k :: v :: rest => (k, v) :: chunkPairs rest
  | _ => []

/-- `redis.client.pairs_to_dict`: `dict(izip(it, it))` over the reply. -/
def pairs_to_dict (response : List String) : List (String × String) :=
  dictOfPairs (chunkPairs response)

/-- `_stream_list` (the XRANGE/XREVRANGE response decoder): a `None` reply
short-circuits to `None` (`if response is None: return`), otherwise each
`(ts_seq, kv_list)` entry decodes to `(ts_seq, pairs_to_dict(kv_list))`,
keeping the reply order. -/
def _stream_list (response : Option (List (String × List String))) :
    Option (List (String × List (String × String))) :=
  match response with
  | none => none
  | some rs => some (rs.map fun r => (r.1, pairs_to_dict r.2))

/-- Python truthiness of the optional `key` argument (`if key:`). -/
def truthyStr : Option String → Bool
  | none => false
  | some s => !s.isEmpty

/-- Python truthiness of the optional `keys` argument (`elif keys:`). -/
def truthyList {α : Type} : Option (List α) → Bool
  | none => false
  | some l => !l.isEmpty

/-- `sum(1 for a in [key, key_to_id, keys] if a is not None)`. -/
def suppliedShapes (key : Option String)
    (key_to_id : Option (List (String × String)))
    (keys : Option (List String)) : Nat :=
  (if key.isSome then 1 else 0) + (if key_to_id.isSome then 1 else 0) +
    (if keys.isSome then 1 else 0)

/-- The value of the `key_to_id` variable after the
`if key: ... elif keys: ...` rebinding; `none` models the Python variable
still holding `None` (which happens when the one supplied shape is falsy). -/
def xreadKeyToId (key : Option String)
    (key_to_id : Option (List (String × String)))
    (keys : Option (List String)) : Option (List (String × String)) :=
  if truthyStr key then some [(key.getD "", "0-0")]
  else if truthyList keys then
    some (dictOfPairs ((keys.getD []).map fun k => (k, "0-0")))
  else key_to_id

/-- The `[BLOCK ms]?` clause of XREAD together with its timeout validation
(`not isinstance(timeout, int) or timeout < 0` raises). -/
def xreadBlock (timeout : Option PyVal) : Except PyErr (List String) :=
  match timeout with
  | none => .ok []
  | some t =>
    if nonNegInt t then .ok ["BLOCK", pyStr t]
    else .error (.valueError "XREAD timeout must be >= 0")

/-- The `[COUNT n]?` clause of XREAD together with its count validation
(`not isinstance(count, int) or count < 1` raises). -/
def xreadCount (count : Option PyVal) : Except PyErr (List String) :=
  match count with
  | none => .ok []
  | some c =>
    if posInt c then .ok ["COUNT", pyStr c]
    else .error (.valueError "XREAD count must be a positive integer")

/-- `Database.xread`: the exactly-one-shape check, the `key_to_id` rebinding,
the timeout and count validation, then the `STREAMS key... id...` tail built
by iterating the mapping (all keys first, then the ids in the same order).
An `.ok parts` result stands for `execute_command('XREAD', *parts)`; an
`.error` means the call raised before any command was sent.  When the one
supplied shape is falsy the rebinding leaves `key_to_id` as `None` and the
`key_to_id.items()` loop raises `AttributeError`. -/
def xread (key : Option String) (key_to_id : Option (List (String × String)))
    (keys : Option (List String)) (count : Option PyVal)
    (timeout : Option PyVal) : Except PyErr (List String) :=
  if suppliedShapes key key_to_id keys ≠ 1 then
    .error (.valueError "XREAD requires one of key, key_to_id, or keys be specified.")
  else
    match xreadBlock timeout with
    | .error e => .error e
    | .ok bp =>
      match xreadCount count with
      | .error e => .error e
      | .ok cp =>
        match xreadKeyToId key key_to_id keys with
        | none => .error (.attributeError "NoneType object has no attribute items")
        | some m =>
          .ok (bp ++ cp ++ ["STREAMS"] ++ m.map Prod.fst ++ m.map Prod.snd)

/-- C6: `xadd` with a supplied `maxlen` that is not a positive integer — in
particular `0`, `-1`, or the string `"x"` — raises `ValueError` before any
command is sent, while omitting `maxlen` or supplying a positive integer
raises no such error. -/
theorem xadd_maxlen_validation (key : String) (data : List (String × String))
    (id : String) (approximate : Bool) :
    xadd key data id (some (PyVal.vint 0)) approximate =
      .error (.valueError "XADD maxlen must be a positive integer") ∧
    xadd key data id (some (PyVal.vint (-1))) approximate =
      .error (.valueError "XADD maxlen must be a positive integer") ∧
    xadd key data id (some (PyVal.vstr "x")) approximate =
      .error (.valueError "XADD maxlen must be a positive integer") ∧
    (∃ parts, xadd key data id none approximate = .ok parts) ∧
    (∀ n : Int, 1 ≤ n → ∃ parts,
      xadd key data id (some (PyVal.vint n)) approximate = .ok parts) := by
  refine ⟨by simp [xadd, posInt], by simp [xadd, posInt], rfl,
    ⟨id :: kvParts data, rfl⟩, ?_⟩
  intro n hn
  exact ⟨(["MAXLEN"] ++ (if approximate then ["~"] else []) ++
      [pyStr (PyVal.vint n)]) ++ id :: kvParts data,
    by simp [xadd, posInt, hn]⟩

theorem xadd_maxlen_validation_witness :
    xadd "k" [("a", "1")] "*" (some (PyVal.vint 0)) true =
      .error (.valueError "XADD maxlen must be a positive integer") ∧
    (∃ parts, xadd "k" [("a", "1")] "*" (some (PyVal.vint 5)) true = .ok parts) :=
  ⟨(xadd_maxlen_validation "k" [("a", "1")] "*" true).1,
   (xadd_maxlen_validation "k" [("a", "1")] "*" true).2.2.2.2 5 (by decide)⟩

/-- C4: `xread` fails with the usage `ValueError` when zero or several of the
three target shapes are supplied; with exactly one shape supplied it fails
with `ValueError` when a supplied timeout is negative or not an integer, and
(timeout absent or valid) with `ValueError` when a supplied count is not a
positive integer; every such failure is an `.error`, i.e. happens before any
command is sent. -/
theorem xread_validation :
    (∀ key key_to_id keys count timeout,
      suppliedShapes key key_to_id keys ≠ 1 →
      xread key key_to_id keys count timeout =
        .error (.valueError
          "XREAD requires one of key, key_to_id, or keys be specified.")) ∧
    (∀ key key_to_id keys count t,
      suppliedShapes key key_to_id keys = 1 → nonNegInt t = false →
      xread key key_to_id keys count (some t) =
        .error (.valueError "XREAD timeout must be >= 0")) ∧
    (∀ key key_to_id keys c timeout bp,
      suppliedShapes key key_to_id keys = 1 →
      xreadBlock timeout = .ok bp → posInt c = false →
      xread key key_to_id keys (some c) timeout =
        .error (.valueError "XREAD count must be a positive integer")) := by
  refine ⟨?_, ?_, ?_⟩
  · intro key key_to_id keys count timeout h
    simp [xread, h]
  · intro key key_to_id keys count t h1 h2
    simp [xread, h1, xreadBlock, h2]
  · intro key key_to_id keys c timeout bp h1 hbp hc
    simp [xread, h1, hbp, xreadCount, hc]

theorem xread_validation_witness :
    xread none none none none none =
      .error (.valueError
        "XREAD requires one of key, key_to_id, or keys be specified.") ∧
    xread (some "s") none none none (some (PyVal.vint (-1))) =
      .error (.valueError "XREAD timeout must be >= 0") ∧
    xread (some "s") none none (some (PyVal.vint 0)) none =
      .error (.valueError "XREAD count must be a positive integer") :=
  ⟨xread_validation.1 none none none none none (by decide),
   xread_validation.2.1 (some "s") none none none (PyVal.vint (-1))
     (by decide) (by decide),
   xread_validation.2.2 (some "s") none none (PyVal.vint 0) none []
     (by decide) rfl (by decide)⟩

/-- C10: with exactly one supplied but falsy shape — `key=''` as the only
shape, or `keys=[]` as the only shape — `xread` passes the exactly-one-shape
check, the rebinding leaves `key_to_id` as `None`, and the call fails with
`AttributeError` (iterating over `None`) rather than the shape-validation
`ValueError`. -/
theorem xread_falsy_shape_attribute_error :
    xread (some "") none none none none =
      .error (.attributeError "NoneType object has no attribute items") ∧
    xread none none (some ([] : List String)) none none =
      .error (.attributeError "NoneType object has no attribute items") := by
  constructor <;> rfl

/-- C5 counterexample: the claim covers `xtrim` among the validated
operations, but `xtrim` validates nothing — a non-positive `count = -1` is
encoded and sent without any error — and `xread` accepts the non-positive
`timeout = 0` (block indefinitely) without error. -/
theorem xtrim_no_validation_cex :
    xtrim "s" (PyVal.vint (-1)) true = .ok ["MAXLEN", "~", "-1"] ∧
    xread (some "k") none none none (some (PyVal.vint 0)) =
      .ok ["BLOCK", "0", "STREAMS", "k", "0-0"] := by
  constructor <;> rfl

/-- C5 (amended): the count/maxlen/timeout validation holds for `xadd`
(maxlen a positive integer), `xrange`/`xrevrange` (count a positive integer,
via `_xrange`), and `xread` (count a positive integer, timeout a non-negative
integer), each rejected with `ValueError` before any command is sent; `xtrim`
however performs no validation of its `count` and never raises. -/
theorem stream_arg_validation_amended :
    (∀ key data id approximate m, posInt m = false →
      xadd key data id (some m) approximate =
        .error (.valueError "XADD maxlen must be a positive integer")) ∧
    (∀ cmd key start stop c, posInt c = false →
      _xrange cmd key start stop (some c) =
        .error (.valueError (cmd ++ " count must be a positive integer"))) ∧
    (∀ key start stop c, posInt c = false →
      xrange key start stop (some c) =
        .error (.valueError "XRANGE count must be a positive integer") ∧
      xrevrange key start stop (some c) =
        .error (.valueError "XREVRANGE count must be a positive integer")) ∧
    (∀ key key_to_id keys c timeout bp,
      suppliedShapes key key_to_id keys = 1 →
      xreadBlock timeout = .ok bp → posInt c = false →
      xread key key_to_id keys (some c) timeout =
        .error (.valueError "XREAD count must be a positive integer")) ∧
    (∀ key key_to_id keys count t,
      suppliedShapes key key_to_id keys = 1 → nonNegInt t = false →
      xread key key_to_id keys count (some t) =
        .error (.valueError "XREAD timeout must be >= 0")) ∧
    (∀ key c approximate, ∃ parts, xtrim key c approximate = .ok parts) := by
  refine ⟨?_, ?_, ?_, ?_, ?_, ?_⟩
  · intro key data id approximate m hm
    simp [xadd, hm]
  · intro cmd key start stop c hc
    simp [_xrange, hc]
  · intro key start stop c hc
    exact ⟨by simp [xrange, _xrange, hc], by simp [xrevrange, _xrange, hc]⟩
  · intro key key_to_id keys c timeout bp h1 hbp hc
    simp [xread, h1, hbp, xreadCount, hc]
  · intro key key_to_id keys count t h1 h2
    simp [xread, h1, xreadBlock, h2]
  · intro key c approximate
    exact ⟨_, rfl⟩

theorem stream_arg_validation_amended_witness :
    xrange "s" "-" "+" (some (PyVal.vstr "x")) =
      .error (.valueError "XRANGE count must be a positive integer") ∧
    (∃ parts, xtrim "s" (PyVal.vint 0) false = .ok parts) :=
  ⟨(stream_arg_validation_amended.2.2.1 "s" "-" "+" (PyVal.vstr "x") rfl).1,
   stream_arg_validation_amended.2.2.2.2.2 "s" (PyVal.vint 0) false⟩

/-- C8 counterexample: decoding an absent (`None`) range reply yields `None`
(the bare Python `return`), not an empty sequence of pairs. -/
theorem stream_list_none_cex :
    _stream_list none = none ∧
    _stream_list none ≠ some ([] : List (String × List (String × String))) :=
  ⟨rfl, by simp [_stream_list]⟩

/-- C8 (amended): the XRANGE/XREVRANGE reply decoder is total (it never
raises): an empty reply decodes to the empty sequence, an absent (`None`)
reply decodes to `None` (an absent result, not an error), and a present reply
decodes to an ordered sequence of (identifier, field-map) pairs whose
identifiers are the reply's identifiers in reply order. -/
theorem stream_list_decode :
    _stream_list (some []) = some [] ∧
    _stream_list none = none ∧
    ∀ resp, ∃ out, _stream_list (some resp) = some out ∧
      out.map Prod.fst = resp.map Prod.fst := by
  refine ⟨rfl, rfl, ?_⟩
  intro resp
  refine ⟨_, rfl, ?_⟩
  simp [List.map_map]

theorem dictInsert_mem {α : Type} (m : List (String × α)) (k : String) (v : α)
    (p : String × α) (hp : p ∈ dictInsert m k v) : p = (k, v) ∨ p ∈ m := by
  unfold dictInsert at hp
  split at hp
  · obtain ⟨q, hq, hpq⟩ := List.mem_map.mp hp
    cases hqk : (q.1 == k) with
    | true =>
      rw [hqk] at hpq
      simp only [if_pos] at hpq
      left; exact hpq.symm
    | false =>
      rw [hqk] at hpq
      simp only [Bool.false_eq_true, if_neg, not_false_iff] at hpq
      right; rw [← hpq]; exact hq
  · rcases List.mem_append.mp hp with h | h
    · right; exact h
    · left; simpa using h

theorem dictOfPairs_mem_aux {α : Type} (l : List (String × α)) :
    ∀ acc p, p ∈ l.foldl (fun m q => dictInsert m q.1 q.2) acc →
      p ∈ acc ∨ p ∈ l := by
  induction l with
  | nil => intro acc p hp; exact Or.inl hp
  | cons q rest ih =>
    intro acc p hp
    simp only [List.foldl_cons] at hp
    rcases ih (dictInsert acc q.1 q.2) p hp with h | h
    · rcases dictInsert_mem acc q.1 q.2 p h with h2 | h2
      · right; simp [h2]
      · left; exact h2
    · right; simp [h]

theorem dictOfPairs_mem {α : Type} (l : List (String × α)) (p : String × α)
    (hp : p ∈ dictOfPairs l) : p ∈ l := by
  rcases dictOfPairs_mem_aux l [] p hp with h | h
  · simp at h
  · exact h

/-- C7: every `xread` call that succeeds (and therefore sends a command)
sends argument tokens of the shape
`[BLOCK ms]? [COUNT n]? STREAMS key... id...`, where the keys and the ids are
the first and second projections of one mapping — two equal-length parallel
groups in matching order — and when the single-key or key-list shape was the
one supplied (`key_to_id` absent) every id is the from-the-beginning token
`"0-0"`. -/
theorem xread_wire_shape (key : Option String)
    (key_to_id : Option (List (String × String))) (keys : Option (List String))
    (count timeout : Option PyVal) (parts : List String)
    (h : xread key key_to_id keys count timeout = .ok parts) :
    ∃ bp cp m, parts = bp ++ cp ++ ["STREAMS"] ++
        (m : List (String × String)).map Prod.fst ++ m.map Prod.snd ∧
      (bp = [] ∨ ∃ ms, bp = ["BLOCK", ms]) ∧
      (cp = [] ∨ ∃ n, cp = ["COUNT", n]) ∧
      (m.map Prod.fst).length = (m.map Prod.snd).length ∧
      (key_to_id = none → ∀ i ∈ m.map Prod.snd, i = "0-0") := by
  unfold xread at h
  split at h
  · simp at h
  · rename_i hshape
    cases hbp : xreadBlock timeout with
    | error e => rw [hbp] at h; simp at h
    | ok bp =>
      rw [hbp] at h
      cases hcp : xreadCount count with
      | error e => rw [hcp] at h; simp at h
      | ok cp =>
        rw [hcp] at h
        cases hm : xreadKeyToId key key_to_id keys with
        | none => rw [hm] at h; simp at h
        | some m =>
          rw [hm] at h
          simp only [Except.ok.injEq] at h
          refine ⟨bp, cp, m, h.symm, ?_, ?_, by simp, ?_⟩
          · cases timeout with
            | none =>
              left
              simpa [xreadBlock] using hbp.symm
            | some t =>
              have hbp2 : (if nonNegInt t = true then
                    Except.ok ["BLOCK", pyStr t]
                  else (Except.error (PyErr.valueError "XREAD timeout must be >= 0") :
                    Except PyErr (List String))) = Except.ok bp := hbp
              cases hnn : nonNegInt t with
              | true =>
                rw [hnn] at hbp2
                simp only [if_pos] at hbp2
                right
                exact ⟨pyStr t, by simpa using hbp2.symm⟩
              | false =>
                rw [hnn] at hbp2
                simp at hbp2
          · cases count with
            | none =>
              left
              simpa [xreadCount] using hcp.symm
            | some c =>
              have hcp2 : (if posInt c = true then
                    Except.ok ["COUNT", pyStr c]
                  else (Except.error
                      (PyErr.valueError "XREAD count must be a positive integer") :
                    Except PyErr (List String))) = Except.ok cp := hcp
              cases hpc : posInt c with
              | true =>
                rw [hpc] at hcp2
                simp only [if_pos] at hcp2
                right
                exact ⟨pyStr c, by simpa using hcp2.symm⟩
              | false =>
                rw [hpc] at hcp2
                simp at hcp2
          · intro hknone i hi
            obtain ⟨p, hpm, hpi⟩ := List.mem_map.mp hi
            unfold xreadKeyToId at hm
            subst hknone
            split at hm
            · simp only [Option.some.injEq] at hm
              rw [← hm] at hpm
              simp only [List.mem_singleton] at hpm
              rw [← hpi, hpm]
            · split at hm
              · simp only [Option.some.injEq] at hm
                rw [← hm] at hpm
                have hin := dictOfPairs_mem _ p hpm
                obtain ⟨k0, _, hk0⟩ := List.mem_map.mp hin
                rw [← hpi, ← hk0]
              · simp at hm

theorem xread_wire_shape_witness :
    ∃ bp cp m, (["STREAMS", "s", "0-0"] : List String) = bp ++ cp ++
        ["STREAMS"] ++ (m : List (String × String)).map Prod.fst ++
        m.map Prod.snd ∧
      (bp = [] ∨ ∃ ms, bp = ["BLOCK", ms]) ∧
      (cp = [] ∨ ∃ n, cp = ["COUNT", n]) ∧
      (m.map Prod.fst).length = (m.map Prod.snd).length ∧
      ((none : Option (List (String × String))) = none →
        ∀ i ∈ m.map Prod.snd, i = "0-0") :=
  xread_wire_shape (some "s") none none none none ["STREAMS", "s", "0-0"] rfl

/-- `register_script`: the opaque handle the store hands back for a script
body. -/
structure ScriptObj where
  src : String
deriving DecidableEq, Repr

/-- `os.path.basename`: the part of the path after the last slash. -/
def basenameStr (p : String) : String :=
  String.mk ((p.toList.reverse.takeWhile fun c => c ≠ '/').reverse)

/-- `os.path.splitext(s)[0]`: drop the suffix that starts at the last dot,
unless every character before that dot is itself a dot (a leading-dot name
keeps its full name, as in CPython). -/
def splitextRoot (s : String) : String :=
  let cs := s.toList
  let revExt := cs.reverse.takeWhile fun c => c ≠ '.'
  if revExt.length = cs.length then s
  else
    let pre := (cs.reverse.drop (revExt.length + 1)).reverse
    if pre.any fun c => c ≠ '.' then String.mk pre else s

/-- `os.path.splitext(os.path.basename(filename))[0]` — the name a script
file is registered under. -/
def scriptName (filename : String) : String :=
  splitextRoot (basenameStr filename)

/-- The read/register loop of `init_scripts` over the directory listing: each
entry pairs a filename with the outcome of `open(filename).read()` (`.error`
models a raised IOError).  `self._scripts` is filled in place entry by entry,
so a raised read error stops the loop with the entries registered so far still
in the mapping; the result pairs the exposed registry with the raised
exception, if any. -/
def initScriptsGo (acc : List (String × ScriptObj)) :
    List (String × Except PyErr String) →
      List (String × ScriptObj) × Option PyErr
  | [] => (acc, none)
  | (_, .error e) :: _ => (acc, some e)
  | (fn, .ok src) :: rest =>
    initScriptsGo (dictInsert acc (scriptName fn) ⟨src⟩) rest

/-- `Database.init_scripts`: `self._scripts = {}` and then the read/register
loop over the directory's `*.lua` files. -/
def initScripts (files : List (String × Except PyErr String)) :
    List (String × ScriptObj) × Option PyErr :=
  initScriptsGo [] files

/-- C9 counterexample: loading a two-script directory whose second file fails
to read raises the read error but leaves the first script registered —
`self._scripts` holds a strict, non-empty subset (1 of the 2 scripts), i.e. a
partial registry is exposed. -/
theorem init_scripts_partial_registry_cex :
    initScripts [("a.lua", .ok "return 1"),
        ("b.lua", .error (.readFailure "bad file"))] =
      ([("a", ⟨"return 1"⟩)], some (.readFailure "bad file")) ∧
    (initScripts [("a.lua", .ok "return 1"),
        ("b.lua", .error (.readFailure "bad file"))]).1.length = 1 := by
  constructor <;> rfl

theorem initScriptsGo_ok_front (fn : String) (e : PyErr)
    (post : List (String × Except PyErr String)) :
    ∀ (pre : List (String × Except PyErr String))
      (acc : List (String × ScriptObj)),
      (∀ p ∈ pre, ∃ s, p.2 = Except.ok s) →
      initScriptsGo acc (pre ++ (fn, Except.error e) :: post) =
        ((initScriptsGo acc pre).1, some e) := by
  intro pre
  induction pre with
  | nil => intro acc _; rfl
  | cons q rest ih =>
    intro acc hpre
    obtain ⟨s, hs⟩ := hpre q (by simp)
    obtain ⟨g, r⟩ := q
    simp only at hs
    subst hs
    simp only [List.cons_append, initScriptsGo]
    exact ih (dictInsert acc (scriptName g) ⟨s⟩)
      fun p hp => hpre p (List.mem_cons_of_mem _ hp)

/-- C9 (amended): a failed per-file read aborts the rest of the load and the
read error propagates (files after the failing one are never read), but the
registry keeps every script registered before the failure — it equals the
registry a load of just the preceding files would build, so a partial registry
is exposed whenever some files had already been registered. -/
theorem init_scripts_fail_fast (pre : List (String × Except PyErr String))
    (fn : String) (e : PyErr) (post : List (String × Except PyErr String))
    (hpre : ∀ p ∈ pre, ∃ s, p.2 = Except.ok s) :
    initScripts (pre ++ (fn, Except.error e) :: post) =
      ((initScripts pre).1, some e) :=
  initScriptsGo_ok_front fn e post pre [] hpre

theorem init_scripts_fail_fast_witness :
    initScripts ([("a.lua", Except.ok "return 1")] ++
        ("b.lua", Except.error (PyErr.readFailure "bad file")) :: []) =
      ((initScripts [("a.lua", Except.ok "return 1")]).1,
        some (PyErr.readFailure "bad file")) :=
  init_scripts_fail_fast [("a.lua", Except.ok "return 1")] "b.lua"
    (PyErr.readFailure "bad file") []
    (by
      intro p hp
      rw [List.mem_singleton] at hp
      exact ⟨"return 1", by rw [hp]⟩)
